import Mathlib

/-!
# Verification of the TipitakaAi retrieval / model-lifecycle core

A shallow embedding of the TypeScript sources of the offline RAG engine:

* `ModelManager` (src/services/core/ModelManager.ts): the model registry,
  load / unload / eviction controller and the RAM accounting.
* `DatabaseService` (vector search over chunk embeddings, user chunks).
* `RAGEngine` (context assembly, citations, confidence).
* `VoicePipeline` (the single-flight guard of voice interactions).

JavaScript `Map` objects are modelled as association lists that keep
insertion order (JS `Map` iteration order).  JS numbers used for RAM sizes
and token counts are natural numbers / integers; embedding coordinates and
similarity scores are idealised as real numbers.
-/

namespace TipitakaAi

-- ==========================================================
-- ModelManager (src/services/core/ModelManager.ts)
-- ==========================================================

/-- Model kind: `'llm' | 'asr' | 'tts'` from `ModelInfo.type`. -/
inductive MType where
  | llm
  | asr
  | tts
deriving DecidableEq, Repr

/-- `ModelInfo` (src/types/index.ts): one registry entry. -/
structure MMModel where
  id : String
  name : String
  type : MType
  sizeMB : Nat
  ramRequiredMB : Nat
  path : String
  downloaded : Bool
  loaded : Bool
deriving DecidableEq, Repr

/-- `MODELS_CONFIG` from ModelManager.ts: the five catalogued models. -/
def MODELS_CONFIG : List MMModel :=
  [ { id := "llama-3.2-1b-thai", name := "Llama 3.2 1B (Thai-ready)",
      type := .llm, sizeMB := 600, ramRequiredMB := 800,
      path := "models/llm/llama-3.2-1b-q4.pte", downloaded := false, loaded := false },
    { id := "whisper-small-thai", name := "Whisper Small Thai",
      type := .asr, sizeMB := 244, ramRequiredMB := 500,
      path := "models/asr/whisper-small-thai.pte", downloaded := false, loaded := false },
    { id := "whisper-tiny-thai", name := "Whisper Tiny Thai",
      type := .asr, sizeMB := 39, ramRequiredMB := 150,
      path := "models/asr/whisper-tiny-thai.pte", downloaded := false, loaded := false },
    { id := "vits-thai-female", name := "VITS Thai Female",
      type := .tts, sizeMB := 25, ramRequiredMB := 100,
      path := "models/tts/vits-thai-female.pte", downloaded := false, loaded := false },
    { id := "vits-thai-male-monk", name := "VITS Thai Male (Monk voice)",
      type := .tts, sizeMB := 25, ramRequiredMB := 100,
      path := "models/tts/vits-thai-male-monk.pte", downloaded := false, loaded := false } ]

/-- The mutable state of the `ModelManager` singleton: the `models` map
(insertion-ordered) and the key set of the `loadedModels` map. -/
structure MMState where
  models : List MMModel
  loadedModels : List String
deriving DecidableEq, Repr

/-- The registry right after construction (`new ModelManager()`). -/
def mmInitState : MMState := { models := MODELS_CONFIG, loadedModels := [] }

/-- `this.models.get(id)` on an insertion-ordered map. -/
def mmFind (s : MMState) (id : String) : Option MMModel :=
  s.models.find? (fun m => m.id = id)

/-- `model.loaded = v; this.models.set(id, model)` — update one entry in place. -/
def setLoadedFlag (id : String) (v : Bool) (ms : List MMModel) : List MMModel :=
  ms.map (fun m => if m.id = id then { m with loaded := v } else m)

/-- `ModelManager.getLoadedModelsRAM`: sum of `ramRequiredMB` over loaded models. -/
def getLoadedModelsRAM (s : MMState) : Nat :=
  ((s.models.filter (fun m => m.loaded)).map (fun m => m.ramRequiredMB)).sum

/-- `ModelManager.unloadModel`: delete the handle and clear the `loaded` flag;
a missing id is a silent no-op. -/
def unloadModel (id : String) (s : MMState) : MMState :=
  match mmFind s id with
  | none => s
  | some _ =>
      { models := setLoadedFlag id false s.models,
        loadedModels := s.loadedModels.erase id }

/-- The body of the `for (const [id, model] of this.models)` loop in
`ModelManager.evictModels`, iterating over the id list in insertion order,
threading the freed-so-far counter and the state. -/
def evictGo (ids : List String) (required : Int) (freed : Int) (s : MMState) : MMState :=
  match ids with
  | [] => s
  | id :: rest =>
      if required ≤ freed then s
      else
        match mmFind s id with
        | some m =>
            if m.loaded = true ∧ m.type ≠ MType.llm then
              evictGo rest required (freed + m.ramRequiredMB) (unloadModel id s)
            else
              evictGo rest required freed s
        | none => evictGo rest required freed s

/-- `ModelManager.evictModels`: free memory by unloading non-LLM loaded
models in registry order until enough has been freed. -/
def evictModels (required : Int) (s : MMState) : MMState :=
  evictGo (s.models.map (fun m => m.id)) required 0 s

/-- `ModelManager.ensureMemoryAvailable`: 4096 MB budget; evict when the
new model would not fit. -/
def ensureMemoryAvailable (requiredMB : Nat) (s : MMState) : MMState :=
  let currentlyUsed := getLoadedModelsRAM s
  let available : Int := 4096 - (currentlyUsed : Int)
  if available < (requiredMB : Int) then
    evictModels ((requiredMB : Int) - available) s
  else s

/-- Errors thrown by `ModelManager.loadModel`. -/
inductive LoadErr where
  | notFound
  | notDownloaded
deriving DecidableEq, Repr

/-- The value resolved by `ModelManager.loadModel`: `null` on a fresh load,
or the entry cached in `loadedModels`. -/
inductive Handle where
  | null
  | cached
deriving DecidableEq, Repr

/-- `ModelManager.loadModel`: fail on unknown / not-downloaded ids, return
the cached handle when it exists, otherwise ensure memory and set the
`loaded` flag (the placeholder load returns `null`). -/
def loadModel (id : String) (s : MMState) : MMState × Except LoadErr Handle :=
  match mmFind s id with
  | none => (s, .error .notFound)
  | some m =>
      if m.downloaded = false then (s, .error .notDownloaded)
      else if m.loaded = true ∧ s.loadedModels.contains id then
        (s, .ok .cached)
      else
        let s1 := ensureMemoryAvailable m.ramRequiredMB s
        ({ s1 with models := setLoadedFlag id true s1.models }, .ok .null)

/-- One external call to the lifecycle controller. -/
inductive MMOp where
  | load (id : String)
  | unload (id : String)

/-- Apply one call, discarding the returned handle or error. -/
def applyOp (op : MMOp) (s : MMState) : MMState :=
  match op with
  | .load id => (loadModel id s).1
  | .unload id => unloadModel id s

/-- Run a sequence of `loadModel` / `unloadModel` calls. -/
def runOps (ops : List MMOp) (s : MMState) : MMState :=
  ops.foldl (fun s op => applyOp op s) s

/-- The immutable part of a registry entry: id, kind and RAM cost. -/
def registrySig (s : MMState) : List (String × MType × Nat) :=
  s.models.map (fun m => (m.id, m.type, m.ramRequiredMB))

/-- The state still carries exactly the five catalogued models (any flags). -/
def sameRegistry (s : MMState) : Prop :=
  registrySig s = registrySig mmInitState

instance (s : MMState) : Decidable (sameRegistry s) :=
  inferInstanceAs (Decidable (registrySig s = registrySig mmInitState))

/-- Installation status of every registry entry, in order. -/
def downloadedSig (s : MMState) : List (String × Bool) :=
  s.models.map (fun m => (m.id, m.downloaded))

-- ----------------------------------------------------------
-- ModelManager helper lemmas
-- ----------------------------------------------------------

theorem getLoadedModelsRAM_le_total (s : MMState) :
    getLoadedModelsRAM s ≤ (s.models.map (fun m => m.ramRequiredMB)).sum := by
  unfold getLoadedModelsRAM
  induction s.models with
  | nil => simp
  | cons m ms ih =>
      by_cases h : m.loaded
      · simpa [List.filter_cons, h] using Nat.add_le_add_left ih m.ramRequiredMB
      · simp only [List.filter_cons, h, Bool.false_eq_true, if_false, List.map_cons,
          List.sum_cons]
        exact le_trans ih (Nat.le_add_left _ _)

theorem registrySig_setLoadedFlag (id : String) (v : Bool) (s : MMState) :
    registrySig { s with models := setLoadedFlag id v s.models } = registrySig s := by
  unfold registrySig setLoadedFlag
  simp only [List.map_map]
  apply List.map_congr_left
  intro m _
  by_cases h : m.id = id <;> simp [h]

theorem downloadedSig_setLoadedFlag (id : String) (v : Bool) (s : MMState) :
    downloadedSig { s with models := setLoadedFlag id v s.models } = downloadedSig s := by
  unfold downloadedSig setLoadedFlag
  simp only [List.map_map]
  apply List.map_congr_left
  intro m _
  by_cases h : m.id = id <;> simp [h]

theorem registrySig_unloadModel (id : String) (s : MMState) :
    registrySig (unloadModel id s) = registrySig s := by
  unfold unloadModel
  cases mmFind s id with
  | none => rfl
  | some m => exact registrySig_setLoadedFlag id false s

theorem downloadedSig_unloadModel (id : String) (s : MMState) :
    downloadedSig (unloadModel id s) = downloadedSig s := by
  unfold unloadModel
  cases mmFind s id with
  | none => rfl
  | some m => exact downloadedSig_setLoadedFlag id false s

theorem registrySig_evictGo (ids : List String) (required freed : Int) (s : MMState) :
    registrySig (evictGo ids required freed s) = registrySig s := by
  induction ids generalizing freed s with
  | nil => rfl
  | cons id rest ih =>
      unfold evictGo
      by_cases hbr : required ≤ freed
      · simp [hbr]
      · simp only [hbr, if_false]
        cases mmFind s id with
        | none => exact ih freed s
        | some m =>
            dsimp only
            by_cases hc : m.loaded = true ∧ m.type ≠ MType.llm
            · rw [if_pos hc, ih, registrySig_unloadModel]
            · rw [if_neg hc]
              exact ih freed s

theorem downloadedSig_evictGo (ids : List String) (required freed : Int) (s : MMState) :
    downloadedSig (evictGo ids required freed s) = downloadedSig s := by
  induction ids generalizing freed s with
  | nil => rfl
  | cons id rest ih =>
      unfold evictGo
      by_cases hbr : required ≤ freed
      · simp [hbr]
      · simp only [hbr, if_false]
        cases mmFind s id with
        | none => exact ih freed s
        | some m =>
            dsimp only
            by_cases hc : m.loaded = true ∧ m.type ≠ MType.llm
            · rw [if_pos hc, ih, downloadedSig_unloadModel]
            · rw [if_neg hc]
              exact ih freed s

theorem registrySig_ensureMemoryAvailable (requiredMB : Nat) (s : MMState) :
    registrySig (ensureMemoryAvailable requiredMB s) = registrySig s := by
  unfold ensureMemoryAvailable
  by_cases h : (4096 - (getLoadedModelsRAM s : Int)) < (requiredMB : Int)
  · simp only [h, if_true]
    exact registrySig_evictGo _ _ _ _
  · simp [h]

theorem downloadedSig_ensureMemoryAvailable (requiredMB : Nat) (s : MMState) :
    downloadedSig (ensureMemoryAvailable requiredMB s) = downloadedSig s := by
  unfold ensureMemoryAvailable
  by_cases h : (4096 - (getLoadedModelsRAM s : Int)) < (requiredMB : Int)
  · simp only [h, if_true]
    exact downloadedSig_evictGo _ _ _ _
  · simp [h]

theorem registrySig_loadModel (id : String) (s : MMState) :
    registrySig (loadModel id s).1 = registrySig s := by
  unfold loadModel
  cases mmFind s id with
  | none => rfl
  | some m =>
      dsimp only
      by_cases hdl : m.downloaded = false
      · rw [if_pos hdl]
      · rw [if_neg hdl]
        by_cases hc : m.loaded = true ∧ s.loadedModels.contains id
        · rw [if_pos hc]
        · rw [if_neg hc]
          exact (registrySig_setLoadedFlag id true _).trans
            (registrySig_ensureMemoryAvailable m.ramRequiredMB s)

theorem downloadedSig_loadModel (id : String) (s : MMState) :
    downloadedSig (loadModel id s).1 = downloadedSig s := by
  unfold loadModel
  cases mmFind s id with
  | none => rfl
  | some m =>
      dsimp only
      by_cases hdl : m.downloaded = false
      · rw [if_pos hdl]
      · rw [if_neg hdl]
        by_cases hc : m.loaded = true ∧ s.loadedModels.contains id
        · rw [if_pos hc]
        · rw [if_neg hc]
          exact (downloadedSig_setLoadedFlag id true _).trans
            (downloadedSig_ensureMemoryAvailable m.ramRequiredMB s)

theorem sameRegistry_applyOp (op : MMOp) (s : MMState) (h : sameRegistry s) :
    sameRegistry (applyOp op s) := by
  cases op with
  | load id => unfold sameRegistry applyOp; rw [registrySig_loadModel]; exact h
  | unload id => unfold sameRegistry applyOp; rw [registrySig_unloadModel]; exact h

theorem sameRegistry_runOps (ops : List MMOp) (s : MMState) (h : sameRegistry s) :
    sameRegistry (runOps ops s) := by
  induction ops generalizing s with
  | nil => exact h
  | cons op rest ih => exact ih _ (sameRegistry_applyOp op s h)

theorem ramSum_of_sameRegistry (s : MMState) (h : sameRegistry s) :
    (s.models.map (fun m => m.ramRequiredMB)).sum = 1650 := by
  have hmap : (registrySig s).map (fun t => t.2.2)
      = s.models.map (fun m => m.ramRequiredMB) := by
    unfold registrySig
    rw [List.map_map]
    exact List.map_congr_left (fun m _ => rfl)
  rw [← hmap, h]
  decide

theorem ram_le_4096_of_sameRegistry (s : MMState) (h : sameRegistry s) :
    getLoadedModelsRAM s ≤ 4096 := by
  have h1 := getLoadedModelsRAM_le_total s
  rw [ramSum_of_sameRegistry s h] at h1
  exact le_trans h1 (by norm_num)

theorem ram_le_800_of_sameRegistry (s : MMState) (m : MMModel)
    (hreg : sameRegistry s) (hm : m ∈ s.models) : m.ramRequiredMB ≤ 800 := by
  have hmem : (m.id, m.type, m.ramRequiredMB) ∈ registrySig s :=
    List.mem_map_of_mem _ hm
  rw [hreg] at hmem
  simp only [registrySig, mmInitState, MODELS_CONFIG, List.map_cons, List.map_nil,
    List.mem_cons, List.not_mem_nil, or_false, Prod.mk.injEq] at hmem
  rcases hmem with ⟨_, _, h⟩ | ⟨_, _, h⟩ | ⟨_, _, h⟩ | ⟨_, _, h⟩ | ⟨_, _, h⟩ <;>
    rw [h] <;> norm_num

theorem ensureMemoryAvailable_noop (requiredMB : Nat) (s : MMState)
    (h : (requiredMB : Int) ≤ 4096 - (getLoadedModelsRAM s : Int)) :
    ensureMemoryAvailable requiredMB s = s := by
  unfold ensureMemoryAvailable
  rw [if_neg (not_lt.mpr h)]

theorem ensureMemoryAvailable_noop_of_sameRegistry (s : MMState) (m : MMModel)
    (hreg : sameRegistry s) (hm : m ∈ s.models) :
    ensureMemoryAvailable m.ramRequiredMB s = s := by
  apply ensureMemoryAvailable_noop
  have h1 : getLoadedModelsRAM s ≤ 1650 := by
    have := getLoadedModelsRAM_le_total s
    rwa [ramSum_of_sameRegistry s hreg] at this
  have h2 := ram_le_800_of_sameRegistry s m hreg hm
  omega

theorem setLoadedFlag_idem (id : String) (v : Bool) (ms : List MMModel) :
    setLoadedFlag id v (setLoadedFlag id v ms) = setLoadedFlag id v ms := by
  unfold setLoadedFlag
  rw [List.map_map]
  apply List.map_congr_left
  intro m _
  by_cases h : m.id = id <;> simp [h]

theorem mmFind_setLoadedFlag (id : String) (v : Bool) (ms : List MMModel)
    (L : List String) :
    mmFind { models := setLoadedFlag id v ms, loadedModels := L } id
      = (ms.find? (fun m => m.id = id)).map (fun m => { m with loaded := v }) := by
  unfold mmFind setLoadedFlag
  dsimp only
  rw [List.find?_map]
  have hp : ((fun m : MMModel => decide (m.id = id)) ∘
      (fun m => if m.id = id then { m with loaded := v } else m))
      = (fun m : MMModel => decide (m.id = id)) := by
    funext m
    by_cases h : m.id = id <;> simp [h]
  rw [hp]
  cases hf : ms.find? (fun m : MMModel => decide (m.id = id)) with
  | none => rfl
  | some m0 =>
      have hid : m0.id = id := by simpa using List.find?_some hf
      simp [hid]

/-- The id found by `mmFind` matches the requested id, and the entry is a
registry member. -/
theorem mmFind_spec (s : MMState) (id : String) (m : MMModel)
    (h : mmFind s id = some m) : m.id = id ∧ m ∈ s.models := by
  unfold mmFind at h
  exact ⟨by simpa using List.find?_some h, List.mem_of_find?_eq_some h⟩

-- ----------------------------------------------------------
-- Claim theorems for the ModelManager
-- ----------------------------------------------------------

/-- C2.  After any sequence of `loadModel` / `unloadModel` calls starting
from a state carrying the catalogued registry (in particular the initial
registry state), the sum of `ramRequiredMB` over loaded models as returned
by `getLoadedModelsRAM` is at most the 4096 MB RAM budget; every step,
including the eviction run inside `loadModel`, maintains this bound. -/
theorem c2_ram_budget_invariant (ops : List MMOp) (s₀ : MMState)
    (h : sameRegistry s₀) : getLoadedModelsRAM (runOps ops s₀) ≤ 4096 :=
  ram_le_4096_of_sameRegistry _ (sameRegistry_runOps ops s₀ h)

/-- The registry with every model marked downloaded (the state after
`initialize()` found all model files on disk). -/
def mmDlState : MMState :=
  { models := MODELS_CONFIG.map (fun m => { m with downloaded := true }),
    loadedModels := [] }

theorem c2_ram_budget_invariant_witness :
    sameRegistry mmDlState ∧
    getLoadedModelsRAM (runOps
      [MMOp.load "whisper-small-thai", MMOp.load "llama-3.2-1b-thai",
       MMOp.unload "whisper-small-thai"] mmDlState) ≤ 4096 :=
  ⟨by decide, c2_ram_budget_invariant _ _ (by decide)⟩

/-- C9.  Calling `loadModel` twice for the same id (no intervening release
or eviction) yields the same handle both times, and the second call leaves
`getLoadedModelsRAM` unchanged — the flag-based accounting never
double-counts a model.  The hypotheses say the state carries the catalogued
registry, the `loadedModels` cache is empty (it is never populated anywhere
in the code base), and the model exists and is downloaded. -/
theorem c9_loadModel_idempotent (s : MMState) (id : String) (m : MMModel)
    (hreg : sameRegistry s) (hlm : s.loadedModels = [])
    (hfind : mmFind s id = some m) (hdl : m.downloaded = true) :
    (loadModel id (loadModel id s).1).2 = (loadModel id s).2 ∧
    getLoadedModelsRAM (loadModel id (loadModel id s).1).1
      = getLoadedModelsRAM (loadModel id s).1 := by
  obtain ⟨hid, hmem⟩ := mmFind_spec s id m hfind
  have hdl' : ¬ m.downloaded = false := by rw [hdl]; simp
  have hcont : ¬ (m.loaded = true ∧ s.loadedModels.contains id = true) := by
    rw [hlm]; simp
  have hens := ensureMemoryAvailable_noop_of_sameRegistry s m hreg hmem
  -- First call: fresh load that sets the `loaded` flag.
  have h1 : loadModel id s
      = ({ models := setLoadedFlag id true s.models,
           loadedModels := s.loadedModels }, .ok .null) := by
    unfold loadModel
    rw [hfind]
    dsimp only
    rw [if_neg hdl', if_neg hcont, hens]
  -- The state after the first call.
  obtain ⟨sA, hsA⟩ : ∃ sA : MMState,
      sA = { models := setLoadedFlag id true s.models,
             loadedModels := s.loadedModels } := ⟨_, rfl⟩
  rw [← hsA] at h1
  have hregA : sameRegistry sA := by
    unfold sameRegistry at hreg ⊢
    rw [hsA, registrySig_setLoadedFlag id true s]
    exact hreg
  have hfindA : mmFind sA id = some { m with loaded := true } := by
    rw [hsA, mmFind_setLoadedFlag]
    unfold mmFind at hfind
    rw [hfind]
    rfl
  obtain ⟨hidA, hmemA⟩ := mmFind_spec sA id { m with loaded := true } hfindA
  have hcontA : ¬ (({ m with loaded := true } : MMModel).loaded = true ∧
      sA.loadedModels.contains id = true) := by
    rw [hsA]
    dsimp only
    rw [hlm]
    simp
  have hensA : ensureMemoryAvailable ({ m with loaded := true} : MMModel).ramRequiredMB sA = sA :=
    ensureMemoryAvailable_noop_of_sameRegistry sA { m with loaded := true } hregA hmemA
  have h2 : loadModel id sA
      = ({ models := setLoadedFlag id true sA.models,
           loadedModels := sA.loadedModels }, .ok .null) := by
    unfold loadModel
    rw [hfindA]
    dsimp only
    rw [if_neg (by rw [hdl]; simp : ¬ ({ m with loaded := true } : MMModel).downloaded = false),
      if_neg hcontA, hensA]
  have hstate : MMState.mk (setLoadedFlag id true sA.models) sA.loadedModels = sA := by
    rw [hsA]
    dsimp only
    rw [setLoadedFlag_idem]
  constructor
  · rw [h1, h2]
  · rw [h1, h2, hstate]

/-- The Whisper-small entry of the registry after all downloads finished. -/
def wsModel : MMModel :=
  { id := "whisper-small-thai", name := "Whisper Small Thai",
    type := .asr, sizeMB := 244, ramRequiredMB := 500,
    path := "models/asr/whisper-small-thai.pte", downloaded := true, loaded := false }

theorem c9_loadModel_idempotent_witness :
    (sameRegistry mmDlState ∧ mmFind mmDlState "whisper-small-thai" = some wsModel) ∧
    (loadModel "whisper-small-thai" (loadModel "whisper-small-thai" mmDlState).1).2
      = (loadModel "whisper-small-thai" mmDlState).2 ∧
    getLoadedModelsRAM (loadModel "whisper-small-thai"
        (loadModel "whisper-small-thai" mmDlState).1).1
      = getLoadedModelsRAM (loadModel "whisper-small-thai" mmDlState).1 :=
  ⟨⟨by decide, by decide⟩,
    c9_loadModel_idempotent mmDlState "whisper-small-thai" wsModel
      (by decide) rfl (by decide) (by decide)⟩

/-- C10.  `loadModel` (with any eviction it triggers) and `unloadModel`
leave the `downloaded` flag of every registry entry unchanged: load and
eviction only toggle `loaded` flags, never installation status. -/
theorem c10_downloaded_flags_frame (s : MMState) (id₁ id₂ : String) :
    downloadedSig (loadModel id₁ s).1 = downloadedSig s ∧
    downloadedSig (unloadModel id₂ s) = downloadedSig s :=
  ⟨downloadedSig_loadModel id₁ s, downloadedSig_unloadModel id₂ s⟩

-- ==========================================================
-- DatabaseService vector search (src/unnamed/part_003)
-- ==========================================================

/-- One row of `chunks JOIN embeddings`: a corpus chunk together with its
decoded embedding (`blobToVector` reads the whole blob; the stored
`dimensions` column is not used by the decoder). -/
structure ChunkRow where
  id : String
  source_id : String
  content : String
  chunk_index : Nat
  total_chunks : Nat
  title_thai : String
  title_pali : String
  pitaka : String
  nikaya : String
  embedding : List ℝ

/-- One row of the `user_chunks` table. -/
structure UserChunkRow where
  id : String
  document_id : String
  content : String
  chunk_index : Nat
  total_chunks : Nat

/-- One row of the `user_embeddings` table. -/
structure UserEmbeddingRow where
  chunk_id : String
  embedding : List ℝ
  dimensions : Nat

/-- The tables of the SQLite database that the vector-search and
user-document operations touch. -/
structure DBState where
  chunks : List ChunkRow
  userChunks : List UserChunkRow
  userEmbeddings : List UserEmbeddingRow

/-- The `metadata` object packed into each `VectorSearchResult`. -/
structure SuttaMetaM where
  id : String
  sutta_id : String
  title_thai : String
  title_pali : String
  pitaka : String
  nikaya : String

/-- `VectorSearchResult` (src/types/index.ts). -/
structure VectorSearchResult where
  id : String
  title : String
  content : String
  score : ℝ
  distance : ℝ
  metadata : SuttaMetaM

/-- The dot-product loop of `DatabaseService.cosineDistance` (the three
accumulators `dotProduct`, `normA`, `normB` are all instances of this). -/
def dotList (a b : List ℝ) : ℝ :=
  (List.zipWith (fun x y => x * y) a b).sum

/-- `DatabaseService.cosineDistance`: returns 1 on a dimension mismatch,
otherwise `1 - dot(a,b) / (sqrt(normA) * sqrt(normB))`. -/
noncomputable def cosineDistance (a b : List ℝ) : ℝ :=
  if a.length ≠ b.length then 1
  else 1 - dotList a b / (Real.sqrt (dotList a a) * Real.sqrt (dotList b b))

/-- The per-row body of the `.map` inside `DatabaseService.vectorSearch`. -/
noncomputable def mkResult (queryEmbedding : List ℝ) (row : ChunkRow) : VectorSearchResult :=
  let distance := cosineDistance queryEmbedding row.embedding
  { id := row.id,
    title := row.title_thai,
    content := row.content,
    score := 1 - distance,
    distance := distance,
    metadata :=
      { id := row.source_id, sutta_id := row.source_id,
        title_thai := row.title_thai, title_pali := row.title_pali,
        pitaka := row.pitaka, nikaya := row.nikaya } }

/-- `DatabaseService.vectorSearch`: scan `chunks JOIN embeddings`, score
each row, keep scores at or above the threshold, sort by descending score
(JS `Array.prototype.sort` is stable; the comparator compares scores only)
and truncate to `limit`. -/
noncomputable def vectorSearch (db : DBState) (queryEmbedding : List ℝ)
    (limit : Nat) (threshold : ℝ) : List VectorSearchResult :=
  ((((db.chunks.map (fun row => mkResult queryEmbedding row)).filter
      (fun r => decide (threshold ≤ r.score))).mergeSort
      (fun a b => decide (b.score ≤ a.score))).take limit)

/-- `DatabaseService.addUserChunk`: insert one `user_chunks` row and one
`user_embeddings` row; returns the generated chunk id. -/
def addUserChunk (documentId content : String) (chunkIndex totalChunks : Nat)
    (embedding : List ℝ) (db : DBState) : DBState × String :=
  let id := "user-chunk-" ++ documentId ++ "-" ++ toString chunkIndex
  ({ db with
      userChunks := db.userChunks ++
        [{ id := id, document_id := documentId, content := content,
           chunk_index := chunkIndex, total_chunks := totalChunks }],
      userEmbeddings := db.userEmbeddings ++
        [{ chunk_id := id, embedding := embedding,
           dimensions := embedding.length }] }, id)

/-- `QueryFilters` (src/types/index.ts).  The `userDocumentsOnly` field is
declared in the interface. -/
structure QueryFilters where
  pitaka : Option (List String)
  nikaya : Option (List String)
  userDocumentsOnly : Option Bool

/-- The filter block of `RAGEngine.retrieveChunks`: the `pitaka` and
`nikaya` inclusion lists are applied when present and non-empty.  The
`userDocumentsOnly` field of `QueryFilters` is never consulted, exactly as
in the source. -/
def applyFilters (filters : Option QueryFilters)
    (results : List VectorSearchResult) : List VectorSearchResult :=
  match filters with
  | none => results
  | some f =>
      let r1 := match f.pitaka with
        | some ps =>
            if ps.length > 0 then
              results.filter (fun r => ps.contains r.metadata.pitaka)
            else results
        | none => results
      match f.nikaya with
      | some ns =>
          if ns.length > 0 then r1.filter (fun r => ns.contains r.metadata.nikaya)
          else r1
      | none => r1

/-- `RAGEngine.retrieveChunks`: over-fetch `topK * 2` from the store,
apply the metadata filters, truncate to `topK`. -/
noncomputable def retrieveChunks (db : DBState) (queryEmbedding : List ℝ)
    (topK : Nat) (threshold : ℝ) (filters : Option QueryFilters) :
    List VectorSearchResult :=
  (applyFilters filters (vectorSearch db queryEmbedding (topK * 2) threshold)).take topK

-- ----------------------------------------------------------
-- Vector-search helper lemmas
-- ----------------------------------------------------------

/-- Every result of `vectorSearch` is the scored image of some corpus row
and meets the threshold. -/
theorem vectorSearch_mem (db : DBState) (q : List ℝ) (limit : Nat)
    (threshold : ℝ) (r : VectorSearchResult)
    (hr : r ∈ vectorSearch db q limit threshold) :
    ∃ row ∈ db.chunks, r = mkResult q row ∧ threshold ≤ r.score := by
  unfold vectorSearch at hr
  have h1 := List.mem_of_mem_take hr
  have h2 := (List.mergeSort_perm _ _).mem_iff.mp h1
  have h3 := List.of_mem_filter h2
  have h4 := List.mem_of_mem_filter h2
  obtain ⟨row, hrow, heq⟩ := List.mem_map.mp h4
  exact ⟨row, hrow, heq.symm, of_decide_eq_true h3⟩

/-- An all-zero score cannot pass a positive threshold: a row whose
embedding length disagrees with the query gets `distance = 1`, `score = 0`. -/
theorem mkResult_score_of_dim_mismatch (q : List ℝ) (row : ChunkRow)
    (h : q.length ≠ row.embedding.length) : (mkResult q row).score = 0 := by
  simp only [mkResult, cosineDistance, if_pos h]
  ring

-- ----------------------------------------------------------
-- C4: user-document chunks are never candidates
-- ----------------------------------------------------------

/-- The database with empty corpus and user tables. -/
def emptyDB : DBState := { chunks := [], userChunks := [], userEmbeddings := [] }

/-- One user chunk stored via `addUserChunk`, with embedding `[1, 0]`. -/
noncomputable def c4db : DBState :=
  (addUserChunk "doc1" "hello" 0 1 [(1 : ℝ), 0] emptyDB).1

/-- A filter explicitly asking for user documents. -/
def c4filters : QueryFilters :=
  { pitaka := none, nikaya := none, userDocumentsOnly := some true }

/-- C4.  `vectorSearch` scans only `chunks JOIN embeddings`: the
`user_chunks` / `user_embeddings` tables never contribute candidates,
whatever the filter — so a stored user chunk whose embedding matches the
query perfectly (score 1 at threshold 1/2) still yields no result, even
when `userDocumentsOnly` is requested. -/
theorem c4_user_chunks_unreachable :
    (∀ (chunks : List ChunkRow) (uc : List UserChunkRow)
        (ue : List UserEmbeddingRow) (q : List ℝ) (limit : Nat) (threshold : ℝ),
        vectorSearch { chunks := chunks, userChunks := uc, userEmbeddings := ue }
            q limit threshold
          = vectorSearch { chunks := chunks, userChunks := [], userEmbeddings := [] }
            q limit threshold) ∧
    retrieveChunks c4db [(1 : ℝ), 0] 5 (1 / 2) (some c4filters) = [] := by
  constructor
  · intro chunks uc ue q limit threshold
    rfl
  · have hvs : vectorSearch c4db [(1 : ℝ), 0] (5 * 2) (1 / 2) = [] := by
      unfold vectorSearch
      simp [c4db, addUserChunk, emptyDB, List.mergeSort_nil]
    unfold retrieveChunks
    rw [hvs]
    simp [applyFilters, c4filters]

-- ----------------------------------------------------------
-- C6: ordering contract of vectorSearch
-- ----------------------------------------------------------

/-- The ordering contract stated by the specification: at most `limit`
results, all above threshold, sorted by strictly descending score with
ties broken by ascending chunk id. -/
noncomputable def c6SpecContract (db : DBState) (q : List ℝ) (limit : Nat)
    (threshold : ℝ) : Prop :=
  (vectorSearch db q limit threshold).length ≤ limit ∧
  (∀ r ∈ vectorSearch db q limit threshold, threshold ≤ r.score) ∧
  (vectorSearch db q limit threshold).Pairwise
    (fun a b => b.score < a.score ∨ (b.score = a.score ∧ a.id < b.id))

/-- Corpus row with id "b", listed first, embedding `[1, 0]`. -/
noncomputable def c6rowB : ChunkRow :=
  { id := "b", source_id := "sb", content := "B", chunk_index := 0,
    total_chunks := 1, title_thai := "TB", title_pali := "PB",
    pitaka := "sutta", nikaya := "n", embedding := [(1 : ℝ), 0] }

/-- Corpus row with id "a", listed second, embedding `[1, 0]`. -/
noncomputable def c6rowA : ChunkRow :=
  { id := "a", source_id := "sa", content := "A", chunk_index := 0,
    total_chunks := 1, title_thai := "TA", title_pali := "PA",
    pitaka := "sutta", nikaya := "n", embedding := [(1 : ℝ), 0] }

/-- Two corpus chunks with identical embeddings, ids in reverse
alphabetical order. -/
noncomputable def c6db : DBState :=
  { chunks := [c6rowB, c6rowA], userChunks := [], userEmbeddings := [] }

theorem cosineDistance_c6 : cosineDistance [(1 : ℝ), 0] [(1 : ℝ), 0] = 0 := by
  norm_num [cosineDistance, dotList, Real.sqrt_one]

theorem c6_scoreB : (mkResult [(1 : ℝ), 0] c6rowB).score = 1 := by
  simp [mkResult, c6rowB, cosineDistance_c6]

theorem c6_scoreA : (mkResult [(1 : ℝ), 0] c6rowA).score = 1 := by
  simp [mkResult, c6rowA, cosineDistance_c6]

/-- The concrete output of `vectorSearch` on the C6 database: both equal
scoring chunks, in scan order "b" then "a" (the stable sort keeps the scan
order on ties). -/
theorem vectorSearch_c6_eval :
    vectorSearch c6db [(1 : ℝ), 0] 5 (1 / 2)
      = [mkResult [(1 : ℝ), 0] c6rowB, mkResult [(1 : ℝ), 0] c6rowA] := by
  unfold vectorSearch
  have hmap : c6db.chunks.map (fun row => mkResult [(1 : ℝ), 0] row)
      = [mkResult [(1 : ℝ), 0] c6rowB, mkResult [(1 : ℝ), 0] c6rowA] := rfl
  rw [hmap]
  have hpB : decide ((1 : ℝ) / 2 ≤ (mkResult [(1 : ℝ), 0] c6rowB).score) = true :=
    decide_eq_true (by rw [c6_scoreB]; norm_num)
  have hpA : decide ((1 : ℝ) / 2 ≤ (mkResult [(1 : ℝ), 0] c6rowA).score) = true :=
    decide_eq_true (by rw [c6_scoreA]; norm_num)
  rw [List.filter_cons, if_pos hpB, List.filter_cons, if_pos hpA, List.filter_nil]
  have hsorted : List.Pairwise
      (fun a b : VectorSearchResult => decide (b.score ≤ a.score) = true)
      [mkResult [(1 : ℝ), 0] c6rowB, mkResult [(1 : ℝ), 0] c6rowA] := by
    refine List.Pairwise.cons ?_ (List.pairwise_singleton _ _)
    intro b hb
    rw [List.mem_singleton] at hb
    subst hb
    exact decide_eq_true (by rw [c6_scoreA, c6_scoreB])
  rw [List.mergeSort_of_sorted hsorted]
  exact List.take_of_length_le (by simp)

/-- C6 counterexample.  On two identically-scored chunks stored in the
order "b", "a", the output keeps scan order `["b", "a"]`, so the
claimed tie-break by chunk id fails. -/
theorem c6_counterexample : ¬ c6SpecContract c6db [(1 : ℝ), 0] 5 (1 / 2) := by
  intro h
  obtain ⟨-, -, hpw⟩ := h
  rw [vectorSearch_c6_eval] at hpw
  have hrel := List.rel_of_pairwise_cons hpw (List.mem_singleton.mpr rfl)
  rcases hrel with hlt | ⟨-, hid⟩
  · rw [c6_scoreA, c6_scoreB] at hlt
    exact lt_irrefl _ hlt
  · have : (mkResult [(1 : ℝ), 0] c6rowB).id = "b" := rfl
    have hidA : (mkResult [(1 : ℝ), 0] c6rowA).id = "a" := rfl
    rw [this, hidA] at hid
    exact absurd hid (by rw [String.lt_iff_toList_lt]; decide)

/-- C6 amended.  `vectorSearch` returns at most `limit` results, every
returned result has `score ≥ threshold`, and results are sorted in
descending order of score; ties keep the candidate-scan order (the sort is
stable and compares only scores), so the output is still deterministic —
but ties are NOT broken by chunk id. -/
theorem c6_amended_search_contract (db : DBState) (q : List ℝ) (limit : Nat)
    (threshold : ℝ) :
    (vectorSearch db q limit threshold).length ≤ limit ∧
    (∀ r ∈ vectorSearch db q limit threshold, threshold ≤ r.score) ∧
    (vectorSearch db q limit threshold).Pairwise
      (fun a b => b.score ≤ a.score) := by
  refine ⟨List.length_take_le _ _, ?_, ?_⟩
  · intro r hr
    obtain ⟨row, -, -, hs⟩ := vectorSearch_mem db q limit threshold r hr
    exact hs
  · have hsorted := @List.sorted_mergeSort VectorSearchResult
      (fun a b : VectorSearchResult => decide (b.score ≤ a.score))
      (fun a b c hab hbc =>
        decide_eq_true (le_trans (of_decide_eq_true hbc) (of_decide_eq_true hab)))
      (fun a b => by
        rcases le_total b.score a.score with h | h
        · simp [decide_eq_true h]
        · simp [decide_eq_true h])
      ((db.chunks.map (fun row => mkResult q row)).filter
        (fun r => decide (threshold ≤ r.score)))
    have htake := List.Pairwise.sublist (List.take_sublist limit _) hsorted
    exact htake.imp (fun h => of_decide_eq_true h)

-- ----------------------------------------------------------
-- C7: dimension-mismatch handling
-- ----------------------------------------------------------

/-- A corpus row whose stored embedding has dimension 2. -/
noncomputable def c7row : ChunkRow :=
  { id := "c7", source_id := "s7", content := "mismatch", chunk_index := 0,
    total_chunks := 1, title_thai := "T7", title_pali := "P7",
    pitaka := "sutta", nikaya := "n", embedding := [(1 : ℝ), 1] }

/-- Database holding only the mismatched row. -/
noncomputable def c7db : DBState :=
  { chunks := [c7row], userChunks := [], userEmbeddings := [] }

/-- C7 counterexample.  Against a 1-dimensional query the stored
2-dimensional chunk gets `distance = 1`, `score = 0`; at threshold 0 the
filter `score >= threshold` keeps it, so the mismatched chunk DOES appear
in the results — the claimed "skipped for any threshold" fails. -/
theorem c7_counterexample :
    c7row.embedding.length ≠ ([(1 : ℝ)]).length ∧
    (vectorSearch c7db [(1 : ℝ)] 10 0).map (fun r => r.id) = ["c7"] := by
  constructor
  · simp [c7row]
  · unfold vectorSearch
    have hmap : c7db.chunks.map (fun row => mkResult [(1 : ℝ)] row)
        = [mkResult [(1 : ℝ)] c7row] := rfl
    rw [hmap]
    have hscore : (mkResult [(1 : ℝ)] c7row).score = 0 :=
      mkResult_score_of_dim_mismatch _ _ (by simp [c7row])
    have hp : decide ((0 : ℝ) ≤ (mkResult [(1 : ℝ)] c7row).score) = true :=
      decide_eq_true (by rw [hscore])
    rw [List.filter_cons, if_pos hp, List.filter_nil, List.mergeSort_singleton]
    rfl

/-- C7 amended.  For every positive threshold, every result returned by
`vectorSearch` comes from a corpus row whose embedding length equals the
query length: a mismatched row scores 0 and is skipped, and the rest of
the scan completes normally. -/
theorem c7_amended_mismatch_skipped (db : DBState) (q : List ℝ) (limit : Nat)
    (threshold : ℝ) (ht : 0 < threshold) :
    ∀ r ∈ vectorSearch db q limit threshold,
      ∃ row ∈ db.chunks, r = mkResult q row ∧ row.embedding.length = q.length := by
  intro r hr
  obtain ⟨row, hrow, heq, hs⟩ := vectorSearch_mem db q limit threshold r hr
  refine ⟨row, hrow, heq, ?_⟩
  by_contra hne
  have hmis : q.length ≠ row.embedding.length := fun h => hne h.symm
  have h0 : r.score = 0 := by
    rw [heq]
    exact mkResult_score_of_dim_mismatch q row hmis
  rw [h0] at hs
  exact absurd (lt_of_lt_of_le ht hs) (lt_irrefl 0)

theorem c7_amended_mismatch_skipped_witness :
    (0 : ℝ) < 1 / 2 ∧
    ∀ r ∈ vectorSearch c6db [(1 : ℝ), 0] 5 (1 / 2),
      ∃ row ∈ c6db.chunks, r = mkResult [(1 : ℝ), 0] row ∧
        row.embedding.length = ([(1 : ℝ), 0]).length :=
  ⟨by norm_num,
    c7_amended_mismatch_skipped c6db [(1 : ℝ), 0] 5 (1 / 2) (by norm_num)⟩

-- ----------------------------------------------------------
-- C5: the similarity score and its range
-- ----------------------------------------------------------

theorem dotList_eq_sum (a : List ℝ) : ∀ b : List ℝ, a.length = b.length →
    dotList a b = ∑ i ∈ Finset.range a.length, a.getD i 0 * b.getD i 0 := by
  induction a with
  | nil =>
      intro b h
      simp [dotList]
  | cons x a ih =>
      intro b h
      cases b with
      | nil => simp at h
      | cons y b =>
          have hl : a.length = b.length := by simpa using h
          have hstep : dotList (x :: a) (y :: b) = x * y + dotList a b := by
            simp [dotList]
          rw [hstep, ih b hl]
          simp only [List.length_cons]
          rw [Finset.sum_range_succ'
            (fun i => (x :: a).getD i 0 * (y :: b).getD i 0) a.length]
          simp only [List.getD_cons_succ, List.getD_cons_zero]
          ring

theorem dotList_self_eq_sum_sq (a : List ℝ) :
    dotList a a = ∑ i ∈ Finset.range a.length, (a.getD i 0) ^ 2 := by
  rw [dotList_eq_sum a a rfl]
  exact Finset.sum_congr rfl (fun i _ => (pow_two _).symm)

/-- Cauchy–Schwarz, square-root form, for the list dot product. -/
theorem dotList_le_sqrt_mul_sqrt (a b : List ℝ) (h : a.length = b.length) :
    dotList a b ≤ Real.sqrt (dotList a a) * Real.sqrt (dotList b b) := by
  rw [dotList_eq_sum a b h, dotList_self_eq_sum_sq a, dotList_self_eq_sum_sq b, ← h]
  exact Real.sum_mul_le_sqrt_mul_sqrt (Finset.range a.length)
    (fun i => a.getD i 0) (fun i => b.getD i 0)

theorem neg_dotList_le_sqrt_mul_sqrt (a b : List ℝ) (h : a.length = b.length) :
    -(dotList a b) ≤ Real.sqrt (dotList a a) * Real.sqrt (dotList b b) := by
  rw [dotList_eq_sum a b h, dotList_self_eq_sum_sq a, dotList_self_eq_sum_sq b, ← h]
  have hcs := Real.sum_mul_le_sqrt_mul_sqrt (Finset.range a.length)
    (fun i => -(a.getD i 0)) (fun i => b.getD i 0)
  simp only [neg_mul, Finset.sum_neg_distrib, neg_sq] at hcs
  exact hcs

/-- C5 amended.  For non-degenerate (non-zero, equal-dimension) vectors the
score assigned by the search equals `1 - distance` with
`distance = 1 - cosine_similarity` — that is, the score IS the cosine
similarity `dot / (:norm a: * :norm b:)` — and this score lies in the
interval `[-1, 1]` (not `[0, 1]`: opposite-direction vectors score -1). -/
theorem c5_amended_score_range (q : List ℝ) (row : ChunkRow)
    (hlen : q.length = row.embedding.length)
    (hq : 0 < dotList q q) (he : 0 < dotList row.embedding row.embedding) :
    (mkResult q row).score
      = dotList q row.embedding
        / (Real.sqrt (dotList q q) * Real.sqrt (dotList row.embedding row.embedding)) ∧
    -1 ≤ (mkResult q row).score ∧ (mkResult q row).score ≤ 1 := by
  have hne : ¬ q.length ≠ row.embedding.length := by simpa using hlen
  have hscore : (mkResult q row).score
      = dotList q row.embedding
        / (Real.sqrt (dotList q q) * Real.sqrt (dotList row.embedding row.embedding)) := by
    simp only [mkResult, cosineDistance, if_neg hne]
    ring
  have hden : 0 < Real.sqrt (dotList q q) * Real.sqrt (dotList row.embedding row.embedding) :=
    mul_pos (Real.sqrt_pos.mpr hq) (Real.sqrt_pos.mpr he)
  refine ⟨hscore, ?_, ?_⟩
  · rw [hscore, le_div_iff₀ hden]
    have := neg_dotList_le_sqrt_mul_sqrt q row.embedding hlen
    linarith
  · rw [hscore, div_le_one hden]
    exact dotList_le_sqrt_mul_sqrt q row.embedding hlen

theorem c5_amended_score_range_witness :
    (([(1 : ℝ), 0]).length = c6rowB.embedding.length ∧
      0 < dotList [(1 : ℝ), 0] [(1 : ℝ), 0] ∧
      0 < dotList c6rowB.embedding c6rowB.embedding) ∧
    -1 ≤ (mkResult [(1 : ℝ), 0] c6rowB).score ∧
      (mkResult [(1 : ℝ), 0] c6rowB).score ≤ 1 :=
  ⟨⟨rfl, by norm_num [dotList], by norm_num [c6rowB, dotList]⟩,
    (c5_amended_score_range [(1 : ℝ), 0] c6rowB rfl
      (by norm_num [dotList]) (by norm_num [c6rowB, dotList])).2⟩

/-- Corpus row with the one-dimensional embedding `[-1]`. -/
noncomputable def c5row : ChunkRow :=
  { id := "c5", source_id := "s5", content := "neg", chunk_index := 0,
    total_chunks := 1, title_thai := "T5", title_pali := "P5",
    pitaka := "sutta", nikaya := "n", embedding := [(-1 : ℝ)] }

/-- C5 counterexample.  The pair `[1]`, `[-1]` is non-degenerate (non-zero,
equal dimension) yet the computed score is `-1`, outside the claimed
interval `[0, 1]`. -/
theorem c5_counterexample :
    (0 < dotList [(1 : ℝ)] [(1 : ℝ)] ∧
      0 < dotList c5row.embedding c5row.embedding ∧
      ([(1 : ℝ)]).length = c5row.embedding.length) ∧
    (mkResult [(1 : ℝ)] c5row).score = -1 ∧
    ¬ (0 ≤ (mkResult [(1 : ℝ)] c5row).score) := by
  have hs : (mkResult [(1 : ℝ)] c5row).score = -1 := by
    have hne : ¬ ([(1 : ℝ)]).length ≠ (c5row.embedding).length := by
      simp [c5row]
    simp only [mkResult, cosineDistance, if_neg hne]
    norm_num [c5row, dotList, Real.sqrt_one]
  refine ⟨⟨by norm_num [dotList], by norm_num [c5row, dotList], rfl⟩, hs, ?_⟩
  rw [hs]
  norm_num

-- ==========================================================
-- RAGEngine context, citations, confidence (src/unnamed/part_002)
-- ==========================================================

/-- `Citation` (src/types/index.ts). -/
structure Citation where
  suttaId : String
  title : String
  content : String
  relevance : ℝ

/-- Characters matched by the regex class of the Thai block
(code points 0x0E00 to 0x0E7F). -/
def isThaiChar (c : Char) : Bool :=
  decide (0xE00 ≤ c.toNat ∧ c.toNat ≤ 0xE7F)

/-- `RAGEngine.estimateTokens`: Thai characters count half a token each,
all other characters a quarter, rounded up with `Math.ceil`.  JS `length`
counts UTF-16 units; for BMP-only strings this equals the character count
used here. -/
def estimateTokens (text : String) : Nat :=
  let thaiChars := (text.data.filter isThaiChar).length
  let otherChars := text.length - thaiChars
  (((thaiChars : ℚ)) / 2 + ((otherChars : ℚ)) / 4).ceil.toNat

def MAX_CONTEXT_TOKENS : Nat := 2048

def DEFAULT_TOP_K : Nat := 5

/-- The context fragment `buildContext` builds for one result. -/
def chunkString (r : VectorSearchResult) : String :=
  "[" ++ r.metadata.title_thai ++ "]\n" ++ r.content ++ "\n"

/-- The loop of `RAGEngine.buildContext`: the running token estimate, with
`break` as soon as adding the next chunk would exceed the budget. -/
def buildContextAux : List VectorSearchResult → Nat → List String
  | [], _ => []
  | r :: rest, currentTokens =>
      let chunk := chunkString r
      let tokens := estimateTokens chunk
      if MAX_CONTEXT_TOKENS < currentTokens + tokens then []
      else chunk :: buildContextAux rest (currentTokens + tokens)

/-- `RAGEngine.buildContext`. -/
def buildContext (results : List VectorSearchResult) : String :=
  String.intercalate "\n---\n" (buildContextAux results 0)

/-- The results whose chunks actually make it into the context: the same
loop as `buildContextAux`, collecting the results instead of the strings
(a definition needed to state the citation invariant). -/
def includedResultsAux : List VectorSearchResult → Nat → List VectorSearchResult
  | [], _ => []
  | r :: rest, currentTokens =>
      let tokens := estimateTokens (chunkString r)
      if MAX_CONTEXT_TOKENS < currentTokens + tokens then []
      else r :: includedResultsAux rest (currentTokens + tokens)

def includedResults (results : List VectorSearchResult) : List VectorSearchResult :=
  includedResultsAux results 0

theorem buildContextAux_eq_included (results : List VectorSearchResult) :
    ∀ currentTokens : Nat,
      buildContextAux results currentTokens
        = (includedResultsAux results currentTokens).map chunkString := by
  induction results with
  | nil => intro c; rfl
  | cons r rest ih =>
      intro c
      unfold buildContextAux includedResultsAux
      by_cases h : MAX_CONTEXT_TOKENS < c + estimateTokens (chunkString r)
      · simp only [h, if_true, List.map_nil]
      · simp only [h, if_false, List.map_cons, ih]

/-- `RAGEngine.buildCitations`: one citation per search result, 200-unit
excerpt, relevance copied from the score.  Note that it maps over the FULL
result list, not the context-included one. -/
def buildCitations (results : List VectorSearchResult) : List Citation :=
  results.map (fun r =>
    { suttaId := r.metadata.id,
      title := r.metadata.title_thai,
      content := r.content.take 200 ++ "...",
      relevance := r.score })

/-- `RAGEngine.calculateConfidence`: average score of the results times
`min(length / DEFAULT_TOP_K, 1)`; `0` on the empty list. -/
noncomputable def calculateConfidence (results : List VectorSearchResult) : ℝ :=
  if results.length = 0 then 0
  else
    let avgScore := (results.map (fun r => r.score)).sum / (results.length : ℝ)
    let countFactor := min ((results.length : ℝ) / (DEFAULT_TOP_K : ℝ)) 1
    avgScore * countFactor

/-- The response fields of steps 3–5 of `RAGEngine.query`: context string,
citation list and confidence, all computed from the same retrieved
`searchResults` (the answer text itself comes from the external LLM). -/
structure RAGOutputs where
  context : String
  sources : List Citation
  confidence : ℝ

noncomputable def queryOutputs (searchResults : List VectorSearchResult) : RAGOutputs :=
  { context := buildContext searchResults,
    sources := buildCitations searchResults,
    confidence := calculateConfidence searchResults }

-- ----------------------------------------------------------
-- Token-estimate evaluation helpers
-- ----------------------------------------------------------

theorem noThai_replicate (n : Nat) (c : Char) (h : isThaiChar c = false) :
    (List.replicate n c).filter isThaiChar = [] := by
  induction n with
  | zero => rfl
  | succ n ih =>
      rw [List.replicate_succ, List.filter_cons]
      simp [h, ih]

theorem estimateTokens_no_thai (s : String) (h : s.data.filter isThaiChar = []) :
    estimateTokens s = (((s.length : ℚ)) / 4).ceil.toNat := by
  unfold estimateTokens
  rw [h]
  simp

-- ----------------------------------------------------------
-- C1: citations versus the context budget
-- ----------------------------------------------------------

/-- 7999 ASCII characters: its context chunk costs 2001 tokens. -/
def c1content1 : String := String.mk (List.replicate 7999 'a')

/-- 399 ASCII characters: its context chunk costs 101 tokens. -/
def c1content2 : String := String.mk (List.replicate 399 'b')

/-- First retrieved result: its chunk alone nearly fills the 2048-token
context budget. -/
noncomputable def c1r1 : VectorSearchResult :=
  { id := "ch1", title := "T", content := c1content1, score := 1, distance := 0,
    metadata :=
      { id := "s1", sutta_id := "s1", title_thai := "T",
        title_pali := "P", pitaka := "sutta", nikaya := "n" } }

/-- Second retrieved result: adding its chunk would exceed the budget, so
`buildContext` drops it. -/
noncomputable def c1r2 : VectorSearchResult :=
  { id := "ch2", title := "U", content := c1content2, score := 1, distance := 0,
    metadata :=
      { id := "s2", sutta_id := "s2", title_thai := "U",
        title_pali := "P", pitaka := "sutta", nikaya := "n" } }

theorem c1_tokens1 : estimateTokens (chunkString c1r1) = 2001 := by
  have hf : (chunkString c1r1).data.filter isThaiChar = [] := by
    show (("[" ++ "T" ++ "]\n" ++ c1content1 ++ "\n").data).filter isThaiChar = []
    simp only [String.data_append, List.filter_append]
    rw [show c1content1.data = List.replicate 7999 (Char.ofNat 97) from rfl,
      noThai_replicate 7999 (Char.ofNat 97) (by decide)]
    decide
  have hl : (chunkString c1r1).length = 8004 := by
    show ("[" ++ "T" ++ "]\n" ++ c1content1 ++ "\n").length = 8004
    simp only [String.length_append]
    rw [show c1content1.length = 7999 from by
      rw [show c1content1 = String.mk (List.replicate 7999 (Char.ofNat 97)) from rfl,
        String.length_mk, List.length_replicate]]
    decide
  rw [estimateTokens_no_thai _ hf, hl]
  norm_num [Rat.ceil]
  rfl

theorem c1_tokens2 : estimateTokens (chunkString c1r2) = 101 := by
  have hf : (chunkString c1r2).data.filter isThaiChar = [] := by
    show (("[" ++ "U" ++ "]\n" ++ c1content2 ++ "\n").data).filter isThaiChar = []
    simp only [String.data_append, List.filter_append]
    rw [show c1content2.data = List.replicate 399 (Char.ofNat 98) from rfl,
      noThai_replicate 399 (Char.ofNat 98) (by decide)]
    decide
  have hl : (chunkString c1r2).length = 404 := by
    show ("[" ++ "U" ++ "]\n" ++ c1content2 ++ "\n").length = 404
    simp only [String.length_append]
    rw [show c1content2.length = 399 from by
      rw [show c1content2 = String.mk (List.replicate 399 (Char.ofNat 98)) from rfl,
        String.length_mk, List.length_replicate]]
    decide
  rw [estimateTokens_no_thai _ hf, hl]
  norm_num [Rat.ceil]
  rfl

theorem c1_included_eval : includedResults [c1r1, c1r2] = [c1r1] := by
  unfold includedResults
  unfold includedResultsAux
  rw [c1_tokens1]
  rw [if_neg (by norm_num [MAX_CONTEXT_TOKENS])]
  unfold includedResultsAux
  rw [c1_tokens2]
  rw [if_pos (by norm_num [MAX_CONTEXT_TOKENS])]

/-- C1.  `buildContext` includes exactly the chunks of `includedResults`
(the budget-respecting loop), but `buildCitations` — and hence the
`sources` field of the query response — cites every retrieved result: on
the failing input the second chunk is dropped from the context (2001 + 101
tokens exceed 2048) yet a citation for it ("s2") is still returned,
violating the citation invariant. -/
theorem c1_citation_for_dropped_chunk :
    (∀ rs : List VectorSearchResult,
        buildContext rs = String.intercalate "\n---\n"
          ((includedResults rs).map chunkString)) ∧
    (includedResults [c1r1, c1r2]).map (fun r => r.metadata.id) = ["s1"] ∧
    ((queryOutputs [c1r1, c1r2]).sources).map (fun c => c.suttaId) = ["s1", "s2"] := by
  refine ⟨?_, ?_, ?_⟩
  · intro rs
    unfold buildContext includedResults
    rw [buildContextAux_eq_included]
  · rw [c1_included_eval]
    rfl
  · rfl

-- ----------------------------------------------------------
-- C8: the confidence formula
-- ----------------------------------------------------------

/-- The claimed confidence: average score of the results included in the
context, times `min(included count / topK, 1)`, using the query's `topK`. -/
noncomputable def c8ClaimedConfidence (results : List VectorSearchResult)
    (topK : Nat) : ℝ :=
  if (includedResults results).length = 0 then 0
  else
    ((includedResults results).map (fun r => r.score)).sum
        / ((includedResults results).length : ℝ)
      * min (((includedResults results).length : ℝ) / (topK : ℝ)) 1

/-- The formula the code actually computes, written from the amended
claim: average score of ALL retrieved results — whether or not their
chunks made it into the context — times `min(count / 5, 1)` with the fixed
default top-k of 5, ignoring the query's `topK`; `0` with no results. -/
noncomputable def c8AmendedConfidence (results : List VectorSearchResult) : ℝ :=
  if results.length = 0 then 0
  else
    ((results.map (fun r => r.score)).sum / (results.length : ℝ))
      * min ((results.length : ℝ) / 5) 1

/-- Small retrieved result with score 1 (chunk fits the budget easily). -/
noncomputable def c8r1 : VectorSearchResult :=
  { id := "k1", title := "T", content := "x", score := 1, distance := 0,
    metadata :=
      { id := "t1", sutta_id := "t1", title_thai := "T",
        title_pali := "P", pitaka := "sutta", nikaya := "n" } }

/-- Second small retrieved result with score 1. -/
noncomputable def c8r2 : VectorSearchResult :=
  { id := "k2", title := "T", content := "y", score := 1, distance := 0,
    metadata :=
      { id := "t2", sutta_id := "t2", title_thai := "T",
        title_pali := "P", pitaka := "sutta", nikaya := "n" } }

theorem c8_tokens1 : estimateTokens (chunkString c8r1) = 2 := by
  have hf : (chunkString c8r1).data.filter isThaiChar = [] := by decide
  have hl : (chunkString c8r1).length = 6 := by decide
  rw [estimateTokens_no_thai _ hf, hl]
  norm_num [Rat.ceil]
  rfl

theorem c8_tokens2 : estimateTokens (chunkString c8r2) = 2 := by
  have hf : (chunkString c8r2).data.filter isThaiChar = [] := by decide
  have hl : (chunkString c8r2).length = 6 := by decide
  rw [estimateTokens_no_thai _ hf, hl]
  norm_num [Rat.ceil]
  rfl

theorem c8_included_eval : includedResults [c8r1, c8r2] = [c8r1, c8r2] := by
  unfold includedResults
  unfold includedResultsAux
  rw [c8_tokens1]
  rw [if_neg (by norm_num [MAX_CONTEXT_TOKENS])]
  unfold includedResultsAux
  rw [c8_tokens2]
  rw [if_neg (by norm_num [MAX_CONTEXT_TOKENS])]
  rfl

/-- C8 counterexample.  For a query with `topK = 2` whose two retrieved
results (scores 1) are both included in the context, the claimed formula
gives `1 * min(2/2, 1) = 1`, while the response actually carries
`1 * min(2/5, 1) = 2/5`: `calculateConfidence` divides by the constant
`DEFAULT_TOP_K = 5`, not the query's `topK`. -/
theorem c8_counterexample :
    (queryOutputs [c8r1, c8r2]).confidence = 2 / 5 ∧
    c8ClaimedConfidence [c8r1, c8r2] 2 = 1 ∧
    ((2 : ℝ) / 5) ≠ 1 := by
  refine ⟨?_, ?_, by norm_num⟩
  · show calculateConfidence [c8r1, c8r2] = 2 / 5
    unfold calculateConfidence
    rw [if_neg (by norm_num)]
    have h1 : c8r1.score = 1 := rfl
    have h2 : c8r2.score = 1 := rfl
    simp only [List.map_cons, List.map_nil, List.sum_cons, List.sum_nil, h1, h2,
      List.length_cons, List.length_nil, DEFAULT_TOP_K]
    rw [min_eq_left (by norm_num)]
    norm_num
  · unfold c8ClaimedConfidence
    rw [c8_included_eval]
    rw [if_neg (by norm_num)]
    have h1 : c8r1.score = 1 := rfl
    have h2 : c8r2.score = 1 := rfl
    simp only [List.map_cons, List.map_nil, List.sum_cons, List.sum_nil, h1, h2,
      List.length_cons, List.length_nil]
    rw [min_eq_left (by norm_num)]
    norm_num

/-- C8 amended.  The confidence of the response equals the average score
of all retrieved results times `min(count / 5, 1)` — the count factor uses
the fixed default top-k of 5 and the average runs over every retrieved
result, regardless of the query's `topK` and of context inclusion; it is
`0` exactly when no results were retrieved. -/
theorem c8_amended_confidence_formula (rs : List VectorSearchResult) :
    (queryOutputs rs).confidence = c8AmendedConfidence rs := by
  show calculateConfidence rs = c8AmendedConfidence rs
  unfold calculateConfidence c8AmendedConfidence DEFAULT_TOP_K
  norm_num

-- ==========================================================
-- VoicePipeline single-flight guard (src/unnamed/part_001)
-- ==========================================================

/-- The observable state of the `VoicePipeline` singleton: whether
`initialize` has set a config, the `isProcessing` flag, and a counter of
completed interactions. -/
structure VPState where
  configured : Bool
  isProcessing : Bool
  completed : Nat
deriving DecidableEq, Repr

/-- The entry section of `VoicePipeline.startVoiceInteraction`: when
already processing it logs a warning and resolves (an early `return` — no
error); without a config it throws; otherwise it sets `isProcessing` and
starts the interaction body.  Returns the new state, the thrown error (if
any) and whether the interaction body was started. -/
def startVoiceInteractionEnter (s : VPState) : VPState × Option String × Bool :=
  if s.isProcessing then (s, none, false)
  else if s.configured = false then (s, some "Pipeline not initialized", false)
  else ({ s with isProcessing := true }, none, true)

/-- The tail of a successful interaction: the `finally` block clears
`isProcessing`; the interaction counts as completed. -/
def finishVoiceInteraction (s : VPState) : VPState :=
  { s with isProcessing := false, completed := s.completed + 1 }

/-- C3 counterexample.  A second call arriving while a query is in flight
(`isProcessing = true`) resolves WITHOUT any error — the guard logs a
warning and returns — so the claimed fail-fast `Busy` error does not
exist: no error value is produced at all. -/
theorem c3_counterexample :
    (startVoiceInteractionEnter ⟨true, true, 0⟩).2.1 = none ∧
    (startVoiceInteractionEnter ⟨true, true, 0⟩).2.2 = false ∧
    (startVoiceInteractionEnter ⟨true, true, 0⟩).1 = ⟨true, true, 0⟩ ∧
    ¬ ∃ e : String, (startVoiceInteractionEnter ⟨true, true, 0⟩).2.1 = some e := by
  refine ⟨rfl, rfl, rfl, ?_⟩
  rintro ⟨e, he⟩
  simp [startVoiceInteractionEnter] at he

/-- C3 amended.  A second `startVoiceInteraction` call arriving while one
is in flight returns immediately with no error and without starting a new
interaction — it neither queues nor runs concurrently and leaves the state
untouched — and the first interaction still completes normally
(`isProcessing` cleared, completion counted).  The rejection is a silent
no-op (a logged warning), not a `Busy` error; `RAGEngine.query` itself has
no in-flight guard at all. -/
theorem c3_amended_silent_rejection (s₀ : VPState)
    (hconf : s₀.configured = true) (hidle : s₀.isProcessing = false) :
    (startVoiceInteractionEnter s₀).2.1 = none ∧
    (startVoiceInteractionEnter s₀).2.2 = true ∧
    startVoiceInteractionEnter (startVoiceInteractionEnter s₀).1
      = ((startVoiceInteractionEnter s₀).1, none, false) ∧
    (finishVoiceInteraction (startVoiceInteractionEnter s₀).1).isProcessing = false ∧
    (finishVoiceInteraction (startVoiceInteractionEnter s₀).1).completed
      = s₀.completed + 1 := by
  simp [startVoiceInteractionEnter, finishVoiceInteraction, hconf, hidle]

theorem c3_amended_silent_rejection_witness :
    ((⟨true, false, 0⟩ : VPState).configured = true ∧
      (⟨true, false, 0⟩ : VPState).isProcessing = false) ∧
    startVoiceInteractionEnter (startVoiceInteractionEnter ⟨true, false, 0⟩).1
      = ((startVoiceInteractionEnter ⟨true, false, 0⟩).1, none, false) ∧
    (finishVoiceInteraction (startVoiceInteractionEnter ⟨true, false, 0⟩).1).completed
      = (⟨true, false, 0⟩ : VPState).completed + 1 :=
  ⟨⟨rfl, rfl⟩,
    (c3_amended_silent_rejection ⟨true, false, 0⟩ rfl rfl).2.2.1,
    (c3_amended_silent_rejection ⟨true, false, 0⟩ rfl rfl).2.2.2.2⟩

end TipitakaAi
